import Mathlib

/-!
Verification of the Cryptics frontend's real-time subscription manager and
token-refresh coordination, as a shallow embedding of the TypeScript source.

Embedded code:
* `apps/web/app/hooks/useVisibleSummaries.ts` — WebSocket message handling
  (shallow merge of summary updates into the latest-value cache), subscription
  reconciliation (`connectWS`), REST snapshot fallback with per-symbol
  cooldown (`fetchSnapshot`), and the pinned-symbol operations
  (`addExtraSymbol` / `removeExtraSymbol`).  The duplicate hook at
  `apps/web/hooks/useVisibleSummaries.ts` is not imported by any page (the
  `@/` alias resolves to `apps/web/app/`, as witnessed by the
  `@/providers/AuthProvider` imports), so the `app/hooks` file is the
  authoritative one.
* `packages/api/src/axios.ts` — the response interceptor (401 handling,
  `_retry` marking, single-flight refresh via `isRefreshing`/`refreshPromise`,
  and `doRefresh`'s localStorage flag/wait protocol).
* `apps/web/app/providers/AuthProvider.tsx` — `getExpiryFromToken`,
  `scheduleNext`, and the proactive `doRefreshAndReschedule` steps.
* `apps/mobile/src/context/AuthContext.tsx` — the auto-refresh interval body
  and its consecutive-failure counter.

JavaScript objects are modelled as association lists of string keys, JS
values as an inductive `Json` type, the event-loop interleaving of the
refresh callers as an explicit labelled transition system whose atomic steps
are the synchronous segments between `await` points of the source.
-/

namespace Cryptics

/-- Json models a JavaScript value as produced by `JSON.parse`: there is no
`undefined` (absent object fields model it), and objects are association
lists in insertion order (well-formed parses carry no duplicate keys). -/
inductive Json where
  | str (s : String)
  | num (n : Int)
  | bool (b : Bool)
  | null
  | arr (elems : List Json)
  | obj (fields : List (String × Json))
deriving Repr

/-- Fields of a JS object, in property order. -/
abbrev ObjFields := List (String × Json)

mutual

/-- Structural equality test on `Json` (written by hand because the nested
occurrence of `List` defeats automatic derivation). -/
def Json.beq : Json → Json → Bool
  | .str a, .str b => a == b
  | .num a, .num b => a == b
  | .bool a, .bool b => a == b
  | .null, .null => true
  | .arr a, .arr b => Json.beqList a b
  | .obj a, .obj b => Json.beqFields a b
  | _, _ => false

def Json.beqList : List Json → List Json → Bool
  | [], [] => true
  | a :: as2, b :: bs2 => Json.beq a b && Json.beqList as2 bs2
  | _, _ => false

def Json.beqFields : List (String × Json) → List (String × Json) → Bool
  | [], [] => true
  | (k1, v1) :: as2, (k2, v2) :: bs2 => k1 == k2 && Json.beq v1 v2 && Json.beqFields as2 bs2
  | _, _ => false

end

mutual

theorem Json.beq_iff : ∀ a b : Json, Json.beq a b = true ↔ a = b
  | .str a, .str b => by simp [Json.beq]
  | .num a, .num b => by simp [Json.beq]
  | .bool a, .bool b => by simp [Json.beq]
  | .null, .null => by simp [Json.beq]
  | .arr a, .arr b => by
      simp only [Json.beq, Json.arr.injEq]
      exact Json.beqList_iff a b
  | .obj a, .obj b => by
      simp only [Json.beq, Json.obj.injEq]
      exact Json.beqFields_iff a b
  | .str _, .num _ | .str _, .bool _ | .str _, .null | .str _, .arr _ | .str _, .obj _
  | .num _, .str _ | .num _, .bool _ | .num _, .null | .num _, .arr _ | .num _, .obj _
  | .bool _, .str _ | .bool _, .num _ | .bool _, .null | .bool _, .arr _ | .bool _, .obj _
  | .null, .str _ | .null, .num _ | .null, .bool _ | .null, .arr _ | .null, .obj _
  | .arr _, .str _ | .arr _, .num _ | .arr _, .bool _ | .arr _, .null | .arr _, .obj _
  | .obj _, .str _ | .obj _, .num _ | .obj _, .bool _ | .obj _, .null | .obj _, .arr _ => by
      simp [Json.beq]

theorem Json.beqList_iff : ∀ a b : List Json, Json.beqList a b = true ↔ a = b
  | [], [] => by simp [Json.beqList]
  | a :: as2, b :: bs2 => by
      simp only [Json.beqList, Bool.and_eq_true, List.cons.injEq]
      exact and_congr (Json.beq_iff a b) (Json.beqList_iff as2 bs2)
  | [], _ :: _ => by simp [Json.beqList]
  | _ :: _, [] => by simp [Json.beqList]

theorem Json.beqFields_iff :
    ∀ a b : List (String × Json), Json.beqFields a b = true ↔ a = b
  | [], [] => by simp [Json.beqFields]
  | (k1, v1) :: as2, (k2, v2) :: bs2 => by
      simp only [Json.beqFields, Bool.and_eq_true, List.cons.injEq, Prod.mk.injEq]
      rw [Json.beq_iff v1 v2, Json.beqFields_iff as2 bs2, beq_iff_eq]
  | [], _ :: _ => by simp [Json.beqFields]
  | _ :: _, [] => by simp [Json.beqFields]

end

instance : DecidableEq Json := fun a b =>
  decidable_of_iff (Json.beq a b = true) (Json.beq_iff a b)

/-- Lookup a property by key, first match (well-formed parsed objects carry
each key once). Returns `none` for an absent property (JS `undefined`). -/
def objGet (fields : ObjFields) (k : String) : Option Json :=
  match fields with
  | [] => none
  | (k2, v) :: rest => if k2 = k then some v else objGet rest k

/-- Own enumerable string-keyed properties contributed by a value under JS
object spread: objects contribute their fields, strings their indexed
characters, and numbers/booleans/null contribute nothing. -/
def jsFields : Json → ObjFields
  | .obj fs => fs
  | .str s => s.toList.enum.map (fun ic => (toString ic.1, Json.str (String.singleton ic.2)))
  | _ => []

/-- Property access `v.k` on a non-null value (access on `null` throws and is
handled separately at each use site). -/
def jsGet (v : Json) (k : String) : Option Json := objGet (jsFields v) k

/-- Truthiness of a JS value. -/
def jsTruthy : Json → Bool
  | .null => false
  | .bool b => b
  | .num n => n != 0
  | .str s => s != ""
  | .arr _ => true
  | .obj _ => true

/-- Truthiness of a possibly-absent value (`undefined` is falsy). -/
def jsTruthyOpt : Option Json → Bool
  | none => false
  | some v => jsTruthy v

/-- JS object spread `\x7b...old, ...upd\x7d`: old keys keep their position,
values overridden by `upd` where present; keys of `upd` not in `old` are
appended in `upd`'s order (`useVisibleSummaries.ts` lines 103-104, 108-109). -/
def mergeFields (old upd : ObjFields) : ObjFields :=
  old.map (fun kv => (kv.1, (objGet upd kv.1).getD kv.2))
    ++ upd.filter (fun kv => (objGet old kv.1).isNone)

/-- Latest-value cache `latest.current : Map`. Keys are JS values (normally
the string symbol, but the source keys the map by `d.symbol`, whatever that
is); `none` is the `undefined` key. Map values are always objects here. -/
abbrev Cache := List (Option Json × ObjFields)

/-- Map.get on the latest-value cache. -/
def cacheGet : Cache → Option Json → Option ObjFields
  | [], _ => none
  | (k2, v) :: rest, k => if k2 = k then some v else cacheGet rest k

/-- Map.set on the latest-value cache: replaces an existing key in place,
otherwise appends (JS Map preserves insertion order). -/
def cacheSet : Cache → Option Json → ObjFields → Cache
  | [], k, v => [(k, v)]
  | (k2, v2) :: rest, k, v =>
      if k2 = k then (k, v) :: rest else (k2, v2) :: cacheSet rest k v

/-- One `data` entry applied to the cache (`useVisibleSummaries.ts` lines
101-105 and 107-110): read the existing entry for `d.symbol` (`|| \x7b\x7d`
when absent), shallow-merge `d` over it and store under the merged object's
`symbol`. `none` models the TypeError thrown by `d.symbol` when `d` is
`null`, which the surrounding try/catch swallows. -/
def applyUpdate (cache : Cache) (d : Json) : Option Cache :=
  match d with
  | .null => none
  | _ =>
    let ex := (cacheGet cache (jsGet d "symbol")).getD []
    let merged := mergeFields ex (jsFields d)
    some (cacheSet cache (objGet merged "symbol") merged)

/-- The `for (const d of msg.data)` loop of the batch branch: an element that
throws aborts the loop, keeping the sets already performed. -/
def applyBatch (cache : Cache) : List Json → Cache
  | [] => cache
  | d :: rest =>
      match applyUpdate cache d with
      | some c2 => applyBatch c2 rest
      | none => cache

/-- Guard `msg.type === "t"` where `msg.type` must be the string `t`. -/
def typeIs (msg : Json) (t : String) : Bool :=
  match jsGet msg "type" with
  | some (.str s) => s == t
  | _ => false

/-- Guard of the summary branch: `msg.type === "summary" && msg.data`. -/
def summaryGuard (msg : Json) : Bool :=
  typeIs msg "summary" && jsTruthyOpt (jsGet msg "data")

/-- Guard of the batch branch: `msg.type === "batch" && Array.isArray(msg.data)`. -/
def batchGuard (msg : Json) : Bool :=
  typeIs msg "batch" &&
    (match jsGet msg "data" with
     | some (.arr _) => true
     | _ => false)

/-- Body of `ws.onmessage` after a successful `JSON.parse` (lines 100-112). -/
def handleParsed (cache : Cache) (msg : Json) : Cache :=
  if summaryGuard msg then
    match jsGet msg "data" with
    | some d => (applyUpdate cache d).getD cache
    | none => cache
  else if batchGuard msg then
    match jsGet msg "data" with
    | some (.arr l) => applyBatch cache l
    | _ => cache
  else cache

/-- An incoming WebSocket frame: either text that `JSON.parse` rejects, or a
parsed JS value. -/
inductive Frame where
  | malformed
  | parsed (msg : Json)
deriving DecidableEq

/-- Whole `ws.onmessage` handler (lines 97-114): parse failures are caught by
the surrounding try/catch and dropped. -/
def handleFrame (cache : Cache) (f : Frame) : Cache :=
  match f with
  | .malformed => cache
  | .parsed msg => handleParsed cache msg

/-- A frame the handler recognizes: a parsed message passing the summary or
the batch guard. -/
def recognizedFrame : Frame → Bool
  | .malformed => false
  | .parsed msg => summaryGuard msg || batchGuard msg

/-- getLatest reads the cache at a string symbol (line 217). -/
def getLatest (cache : Cache) (symbol : String) : Option ObjFields :=
  cacheGet cache (some (.str symbol))

theorem objGet_append (a b : ObjFields) (k : String) :
    objGet (a ++ b) k = ((objGet a k).or (objGet b k)) := by
  induction a with
  | nil => simp [objGet]
  | cons kv rest ih =>
      obtain ⟨k2, v⟩ := kv
      by_cases h : k2 = k <;> simp [objGet, h, ih]

theorem objGet_map_override (old : ObjFields) (k : String) (f : String → Json → Json) :
    objGet (old.map fun kv => (kv.1, f kv.1 kv.2)) k = (objGet old k).map (f k) := by
  induction old with
  | nil => simp [objGet]
  | cons kv rest ih =>
      obtain ⟨k2, v⟩ := kv
      by_cases h : k2 = k
      · subst h; simp [objGet]
      · simp [objGet, h, ih]

theorem objGet_filter (l : ObjFields) (k : String) (p : String × Json → Bool)
    (hp : ∀ v, p (k, v) = true) :
    objGet (l.filter p) k = objGet l k := by
  induction l with
  | nil => simp
  | cons kv rest ih =>
      obtain ⟨k2, v⟩ := kv
      by_cases h : k2 = k
      · subst h; simp [objGet, hp v]
      · by_cases h2 : p (k2, v) = true <;> simp [objGet, h, h2, ih]

/-- Lookup in a shallow merge: a key present in the update wins, a key absent
from the update keeps the old entry's value. -/
theorem mergeFields_lookup (old upd : ObjFields) (k : String) :
    objGet (mergeFields old upd) k = ((objGet upd k).or (objGet old k)) := by
  unfold mergeFields
  rw [objGet_append, objGet_map_override old k (fun k2 v => (objGet upd k2).getD v)]
  cases hOld : objGet old k with
  | some w =>
      cases hUpd : objGet upd k with
      | some v => simp [hUpd]
      | none => simp [hUpd]
  | none =>
      rw [objGet_filter upd k _ (fun v => by simp [hOld])]
      cases hUpd : objGet upd k with
      | some v => simp
      | none => simp [hUpd]

/-- First WS update of the spec's merge example. -/
def btcFrame1 : Frame := .parsed (.obj [("type", .str "summary"),
  ("data", .obj [("symbol", .str "BTCUSDT"), ("last_price", .num 100), ("volume", .num 5)])])

/-- Second, partial WS update of the spec's merge example. -/
def btcFrame2 : Frame := .parsed (.obj [("type", .str "summary"),
  ("data", .obj [("symbol", .str "BTCUSDT"), ("last_price", .num 101)])])

/-- C3: applying an incoming WS summary or batch update shallow-merges it
onto the existing cache entry: a field present in the update wins, a field
absent from the update keeps its prior value; a batch frame applies its
entries with the same merge; and the spec's concrete example — merging
`last_price 100, volume 5` then `last_price 101` for BTCUSDT — yields
`last_price 101, volume 5`. -/
theorem ws_update_shallow_merges (old upd : ObjFields) (k : String) (l : List Json)
    (cache : Cache) :
    (objGet upd k = none → objGet (mergeFields old upd) k = objGet old k)
    ∧ (∀ v, objGet upd k = some v → objGet (mergeFields old upd) k = some v)
    ∧ handleFrame cache (.parsed (.obj [("type", .str "batch"), ("data", .arr l)]))
        = applyBatch cache l
    ∧ getLatest (handleFrame (handleFrame [] btcFrame1) btcFrame2) "BTCUSDT"
        = some [("symbol", .str "BTCUSDT"), ("last_price", .num 101), ("volume", .num 5)] := by
  refine ⟨fun h => ?_, fun v h => ?_, rfl, by decide⟩
  · rw [mergeFields_lookup, h, Option.or]
  · rw [mergeFields_lookup, h, Option.or]

/-- C3 witness: the general retention clause applied to the example's two
updates at the omitted key `volume`. -/
theorem ws_update_shallow_merges_witness :
    objGet [("symbol", Json.str "BTCUSDT"), ("last_price", .num 101)] "volume" = none
    ∧ objGet (mergeFields
        [("symbol", .str "BTCUSDT"), ("last_price", .num 100), ("volume", .num 5)]
        [("symbol", .str "BTCUSDT"), ("last_price", .num 101)]) "volume"
      = some (.num 5) :=
  ⟨rfl, ((ws_update_shallow_merges
      [("symbol", .str "BTCUSDT"), ("last_price", .num 100), ("volume", .num 5)]
      [("symbol", .str "BTCUSDT"), ("last_price", .num 101)] "volume" [] []).1 rfl).trans rfl⟩

/-- C7: a frame that is unparseable JSON, or parses to something that is not
a recognized summary or batch message, is dropped: the handler (a total
function — the try/catch confines any throw) leaves the cache unchanged. -/
theorem unrecognized_frame_dropped (cache : Cache) (f : Frame) :
    recognizedFrame f = false → handleFrame cache f = cache := by
  cases f with
  | malformed => intro _; rfl
  | parsed msg =>
      intro h
      simp only [recognizedFrame, Bool.or_eq_false_iff] at h
      simp [handleFrame, handleParsed, h.1, h.2]

/-- C7 witness: a parsed frame of unexpected shape leaves a non-empty cache
untouched. -/
theorem unrecognized_frame_dropped_witness :
    recognizedFrame (.parsed (.obj [("type", .str "tick"), ("data", .num 3)])) = false
    ∧ handleFrame [(some (.str "X"), [("symbol", .str "X")])]
        (.parsed (.obj [("type", .str "tick"), ("data", .num 3)]))
      = [(some (.str "X"), [("symbol", .str "X")])] :=
  ⟨by decide, unrecognized_frame_dropped _ _ (by decide)⟩

/-! Pinned extra symbols (`useVisibleSummaries.ts` lines 134-147). The
referenced set `extraSymbolsRef.current` is modelled as a `Finset String`;
the debounced reconciliation both functions additionally schedule is the
subject of `connectWS` below. -/

/-- JS `toUpperCase()`, modelled charwise (symbols are ASCII in practice). -/
def toUpperCase (s : String) : String := String.mk (s.data.map Char.toUpper)

/-- addExtraSymbol (lines 134-140): a falsy argument (the empty string) is a
no-op; otherwise the uppercased symbol is inserted. -/
def addExtraSymbol (symbol : String) (extra : Finset String) : Finset String :=
  if symbol = "" then extra else insert (toUpperCase symbol) extra

/-- removeExtraSymbol (lines 142-147): a falsy argument is a no-op; otherwise
the uppercased symbol is erased. -/
def removeExtraSymbol (symbol : String) (extra : Finset String) : Finset String :=
  if symbol = "" then extra else extra.erase (toUpperCase symbol)

/-- C10: both operations uppercase their argument before touching the set, so
adding `s` and then removing `t` restores the prior set whenever `s` and `t`
are case-variants of the same symbol (equal after uppercasing) whose
uppercase form was not already present; both operations are no-ops on the
empty string. -/
theorem addRemoveExtraSymbol_roundtrip (extra : Finset String) (s t : String) :
    (s ≠ "" → t ≠ "" → toUpperCase s = toUpperCase t → toUpperCase s ∉ extra →
      removeExtraSymbol t (addExtraSymbol s extra) = extra)
    ∧ addExtraSymbol "" extra = extra
    ∧ removeExtraSymbol "" extra = extra := by
  refine ⟨fun hs ht hcase hnot => ?_, by simp [addExtraSymbol], by simp [removeExtraSymbol]⟩
  rw [addExtraSymbol, removeExtraSymbol, if_neg hs, if_neg ht, ← hcase,
    Finset.erase_insert hnot]

/-- C10 witness: adding "btc" then removing "Btc" on the empty set restores
the empty set. -/
theorem addRemoveExtraSymbol_roundtrip_witness :
    ("btc" : String) ≠ "" ∧ ("Btc" : String) ≠ ""
    ∧ toUpperCase "btc" = toUpperCase "Btc"
    ∧ toUpperCase "btc" ∉ (∅ : Finset String)
    ∧ removeExtraSymbol "Btc" (addExtraSymbol "btc" ∅) = ∅ :=
  ⟨by decide, by decide, by decide, by decide,
    (addRemoveExtraSymbol_roundtrip ∅ "btc" "Btc").1 (by decide) (by decide)
      (by decide) (by decide)⟩

/-! Proactive refresh scheduling (`AuthProvider.tsx` lines 236-248, 302-353).
The base64url/JSON payload decoding of `getExpiryFromToken` is abstracted to
its result: `expClaim` is the token's decoded `exp` claim in seconds when the
payload decodes and carries one, `none` otherwise. -/

/-- getExpiryFromToken (lines 236-248): a present `exp` claim in seconds is
converted to milliseconds. -/
def getExpiryFromToken (expClaim : Option Nat) : Option Nat :=
  expClaim.map (· * 1000)

/-- scheduleNext (lines 302-353), reduced to the delay passed to setTimeout:
with a decodable expiry, `Math.max(0, expMs - now - 25000)` (Nat subtraction
is the clamp at 0); a zero deadline fires a 50 ms micro-delay timer instead;
without an expiry claim the fallback is a fixed 10-minute period. -/
def scheduleNextDelay (expClaim : Option Nat) (now : Nat) : Nat :=
  match getExpiryFromToken expClaim with
  | some expMs =>
      let refreshAt : Nat := expMs - now - 25 * 1000
      if refreshAt ≤ 0 then 50 else refreshAt
  | none => 10 * 60 * 1000

/-- C6: with a decodable `exp`, the refresh timer is set for the instant 25
seconds before expiry (`now + delay = expMs - 25000`); when that deadline has
already passed (e.g. expiry only 10 s away) the timer is the 50 ms next-tick
delay rather than a full cycle; with no decodable `exp` the fixed 10-minute
fallback period is used. -/
theorem scheduleNext_refresh_deadline (exp now : Nat) :
    (exp * 1000 > now + 25000 →
      scheduleNextDelay (some exp) now = exp * 1000 - now - 25000
      ∧ now + scheduleNextDelay (some exp) now = exp * 1000 - 25000)
    ∧ (exp * 1000 ≤ now + 25000 → scheduleNextDelay (some exp) now = 50)
    ∧ scheduleNextDelay none now = 10 * 60 * 1000 := by
  refine ⟨fun h => ⟨?_, ?_⟩, fun h => ?_, rfl⟩
  · show (if exp * 1000 - now - 25 * 1000 ≤ 0 then 50 else exp * 1000 - now - 25 * 1000)
        = exp * 1000 - now - 25000
    rw [if_neg (by omega)]
  · show now + (if exp * 1000 - now - 25 * 1000 ≤ 0 then 50 else exp * 1000 - now - 25 * 1000)
        = exp * 1000 - 25000
    rw [if_neg (by omega)]
    omega
  · show (if exp * 1000 - now - 25 * 1000 ≤ 0 then 50 else exp * 1000 - now - 25 * 1000) = 50
    rw [if_pos (by omega)]

/-- C6 witness: a token whose exp is 10 seconds in the future (now = 990000
ms, exp = 1000 s) fires on the 50 ms next-tick path, and a token with 100 s
of lifetime left schedules for exactly 25 s before expiry. -/
theorem scheduleNext_refresh_deadline_witness :
    (1000 * 1000 ≤ 990000 + 25000 ∧ scheduleNextDelay (some 1000) 990000 = 50)
    ∧ (1000 * 1000 > 900000 + 25000 ∧ scheduleNextDelay (some 1000) 900000 = 75000) :=
  ⟨⟨by decide, (scheduleNext_refresh_deadline 1000 990000).2.1 (by decide)⟩,
   ⟨by decide, ((scheduleNext_refresh_deadline 1000 900000).1 (by decide)).1.trans (by decide)⟩⟩

/-! Response interceptor of `packages/api/src/axios.ts` (lines 107-183). -/

/-- Request config as the interceptor sees it: the `_retry` mark and the
Authorization header. -/
structure AxiosConfig where
  retryMark : Bool
  authHeader : Option String
deriving DecidableEq

/-- An axios error: `error.config` (absent for defensive `!original`) and
`error.response.status` (`none` when no response arrived). -/
structure AxiosError where
  config : Option AxiosConfig
  status : Option Nat
deriving DecidableEq

/-- Outcome of the rejection handler. -/
inductive RespOutcome where
  /-- `Promise.reject(error)` with the original error. -/
  | rejectedOriginal
  /-- `Promise.reject(e)` after a failed refresh (storage cleared, logout
  broadcast, redirect — lines 155-177). -/
  | rejectedRefreshFailure
  /-- `api(original)`: the single retry, with the config it carries. -/
  | retried (cfg : AxiosConfig)
deriving DecidableEq

/-- Rejection handler of `api.interceptors.response.use` (lines 109-182).
`refreshResult` is the value the awaited single-flight refresh settles with
(`some token` on success). The returned Bool records whether the refresh
path was entered at all. -/
def onResponseError (refreshResult : Option String) (e : AxiosError) :
    RespOutcome × Bool :=
  match e.config with
  | none => (.rejectedOriginal, false)
  | some original =>
    if original.retryMark then (.rejectedOriginal, false)
    else if e.status = some 401 then
      match refreshResult with
      | some tok =>
          (.retried { retryMark := true, authHeader := some ("Bearer " ++ tok) }, true)
      | none => (.rejectedRefreshFailure, true)
    else (.rejectedOriginal, false)

/-- C2: a 401 whose config is not yet marked `_retry` is retried exactly once,
with `_retry` set and the Authorization header carrying the refreshed token;
the retried request's own 401 — and any error on a config already marked
`_retry` — is surfaced as a rejection with no further refresh attempt. -/
theorem response_401_single_retry (cfg : AxiosConfig) (tok : String)
    (r2 : Option String) :
    (cfg.retryMark = false →
      onResponseError (some tok) { config := some cfg, status := some 401 }
        = (.retried { retryMark := true, authHeader := some ("Bearer " ++ tok) }, true)
      ∧ onResponseError r2
          { config := some { retryMark := true, authHeader := some ("Bearer " ++ tok) },
            status := some 401 }
          = (.rejectedOriginal, false))
    ∧ (cfg.retryMark = true → ∀ st r,
        onResponseError r { config := some cfg, status := st } = (.rejectedOriginal, false)) := by
  constructor
  · intro h
    exact ⟨by simp [onResponseError, h], by simp [onResponseError]⟩
  · intro h st r
    simp [onResponseError, h]

/-- C2 witness: a fresh config is retried with the rotated bearer token, and
the marked retry config is rejected outright. -/
theorem response_401_single_retry_witness :
    ({ retryMark := false, authHeader := some "Bearer old" : AxiosConfig }.retryMark = false)
    ∧ onResponseError (some "newtok")
        { config := some { retryMark := false, authHeader := some "Bearer old" },
          status := some 401 }
      = (.retried { retryMark := true, authHeader := some "Bearer newtok" }, true)
    ∧ onResponseError none
        { config := some { retryMark := true, authHeader := some "Bearer newtok" },
          status := some 401 }
      = (.rejectedOriginal, false) :=
  ⟨rfl,
   ((response_401_single_retry
      { retryMark := false, authHeader := some "Bearer old" } "newtok" none).1 rfl).1,
   ((response_401_single_retry
      { retryMark := true, authHeader := some "Bearer newtok" } "newtok" none).2 rfl
      (some 401) none)⟩

/-! Subscription reconciliation: `connectWS` of
`apps/web/app/hooks/useVisibleSummaries.ts` (lines 38-124). The function is
modelled as a state transformer emitting the externally visible WebSocket
actions; attaching the message/close handlers is covered by the sections
above, and `send` is assumed not to throw (the catch-and-recreate fallback of
lines 71-75 is unexercised). -/

/-- Array.from(new Set(l)): deduplication keeping first occurrences in
insertion order. -/
def dedupKeepFirst (l : List String) : List String :=
  l.foldl (fun acc s => if s ∈ acc then acc else acc ++ [s]) []

/-- Code-unit comparison of two strings, as JS `Array.prototype.sort`'s
default comparator orders them (codepoint order on ASCII symbols). -/
def charListLe : List Char → List Char → Bool
  | [], _ => true
  | _ :: _, [] => false
  | a :: as2, b :: bs2 =>
      if a.toNat < b.toNat then true
      else if b.toNat < a.toNat then false
      else charListLe as2 bs2

/-- String code-unit order. -/
def strLe (a b : String) : Bool := charListLe a.data b.data

/-- Insertion step of a stable sort by `strLe`. -/
def insSorted (s : String) : List String → List String
  | [] => [s]
  | t :: rest => if strLe s t then s :: t :: rest else t :: insSorted s rest

/-- JS `array.sort()` under the default comparator. -/
def sortStrings (l : List String) : List String := l.foldr insSorted []

/-- Normalization of the visible symbols for comparison (lines 56-58):
uppercase, drop falsy entries, sort. Note the input is `symbols` alone — the
extra symbols are not included. -/
def normalizedSymbols (symbols : List String) : List String :=
  sortStrings ((symbols.map toUpperCase).filter (fun s => s ≠ ""))

/-- readyState of the browser WebSocket. -/
inductive ReadyState where
  | connecting
  | opened
  | closing
  | closed
deriving DecidableEq

/-- Externally visible actions `connectWS` can perform. -/
inductive WSAct where
  /-- `ws.close()` on the existing connection. -/
  | closeConn
  /-- `ws.send` of `\x7baction:"replace", symbols\x7d` over the existing
  connection. -/
  | sendReplace (symbols : List String)
  /-- the replace deferred to the `open` event of a CONNECTING socket. -/
  | queueReplace (symbols : List String)
  /-- `new WebSocket(url)` parameterized by these symbols. -/
  | openConn (symbols : List String)
deriving DecidableEq

/-- Mutable state `connectWS` reads and writes: the current socket (by
readyState) and `lastSentSymbols.current`. -/
structure WSState where
  conn : Option ReadyState
  lastSent : Option (List String)
deriving DecidableEq

/-- connectWS (lines 38-124): `all = union(symbols, extras)` decides
emptiness and the new-connection URL; `normalized` (visible symbols only)
decides `sameAsLast`; an OPEN socket gets a replace only when changed, a
CONNECTING one a queued replace, otherwise a fresh socket is opened. -/
def connectWS (symbols extras : List String) (st : WSState) : WSState × List WSAct :=
  let all := dedupKeepFirst (symbols ++ extras)
  if all.isEmpty then
    match st.conn with
    | some _ => ({ st with conn := none }, [.closeConn])
    | none => (st, [])
  else
    let normalized := normalizedSymbols symbols
    match st.conn with
    | some .opened =>
        if st.lastSent = some normalized then (st, [])
        else ({ st with lastSent := some normalized }, [.sendReplace symbols])
    | some .connecting => (st, [.queueReplace symbols])
    | some .closing =>
        ({ conn := some .connecting, lastSent := none }, [.closeConn, .openConn all])
    | some .closed =>
        ({ conn := some .connecting, lastSent := none }, [.closeConn, .openConn all])
    | none => ({ st with conn := some .connecting }, [.openConn all])

/-- C4 counterexample: with an OPEN socket that last sent `["BTCUSDT"]`,
visible set still `\x7bBTCUSDT\x7d` but ExtraSymbols grown to
`\x7bETHUSDT\x7d`, the target union has changed order-independently, yet
reconciliation sends nothing — the comparison ignores ExtraSymbols. -/
theorem connectWS_extras_change_unsent_cex :
    connectWS ["BTCUSDT"] ["ETHUSDT"]
        { conn := some .opened, lastSent := some ["BTCUSDT"] }
      = ({ conn := some .opened, lastSent := some ["BTCUSDT"] }, [])
    ∧ dedupKeepFirst (["BTCUSDT"] ++ ["ETHUSDT"]) = ["BTCUSDT", "ETHUSDT"]
    ∧ ("ETHUSDT" : String) ∉ (["BTCUSDT"] : List String) := by
  refine ⟨by decide, by decide, by decide⟩

/-- C4 as amended: while the socket is OPEN (and the union with extras is
non-empty), reconciliation compares only the normalized visible-symbol list
against what was last sent: if equal, nothing is sent and the connection is
untouched; if different, exactly one replace message carrying the visible
symbol list (not the union with ExtraSymbols) goes over the existing
connection, and no connection is closed or opened. -/
theorem connectWS_open_visible_replace (symbols extras : List String)
    (lastSent : Option (List String))
    (hne : dedupKeepFirst (symbols ++ extras) ≠ []) :
    (lastSent = some (normalizedSymbols symbols) →
      connectWS symbols extras { conn := some .opened, lastSent := lastSent }
        = ({ conn := some .opened, lastSent := lastSent }, []))
    ∧ (lastSent ≠ some (normalizedSymbols symbols) →
      connectWS symbols extras { conn := some .opened, lastSent := lastSent }
        = ({ conn := some .opened, lastSent := some (normalizedSymbols symbols) },
           [.sendReplace symbols])) := by
  have hempty : (dedupKeepFirst (symbols ++ extras)).isEmpty = false := by
    cases h : dedupKeepFirst (symbols ++ extras) with
    | nil => exact absurd h hne
    | cons a l => rfl
  constructor
  · intro h
    simp only [connectWS, hempty, Bool.false_eq_true, if_false, if_pos h]
  · intro h
    simp only [connectWS, hempty, Bool.false_eq_true, if_false, if_neg h]

/-- C4 witness: with visible `["ethusdt", "BTCUSDT"]` normalizing to the
last-sent `["BTCUSDT", "ETHUSDT"]` nothing is sent, while a last-sent of
`["BTCUSDT"]` gets exactly one replace over the open socket. -/
theorem connectWS_open_visible_replace_witness :
    dedupKeepFirst (["ethusdt", "BTCUSDT"] ++ []) ≠ []
    ∧ connectWS ["ethusdt", "BTCUSDT"] []
        { conn := some .opened, lastSent := some ["BTCUSDT", "ETHUSDT"] }
      = ({ conn := some .opened, lastSent := some ["BTCUSDT", "ETHUSDT"] }, [])
    ∧ connectWS ["ethusdt", "BTCUSDT"] []
        { conn := some .opened, lastSent := some ["BTCUSDT"] }
      = ({ conn := some .opened, lastSent := some ["BTCUSDT", "ETHUSDT"] },
         [.sendReplace ["ethusdt", "BTCUSDT"]]) :=
  ⟨by decide,
   (connectWS_open_visible_replace ["ethusdt", "BTCUSDT"] []
      (some ["BTCUSDT", "ETHUSDT"]) (by decide)).1 (by decide),
   by
    have h := (connectWS_open_visible_replace ["ethusdt", "BTCUSDT"] []
      (some ["BTCUSDT"]) (by decide)).2 (by decide)
    rw [h]
    decide⟩

/-! REST snapshot fallback: `fetchSnapshot` of
`apps/web/app/hooks/useVisibleSummaries.ts` (lines 176-215). -/

/-- A summary object of the `/market/summaries` response. The backend is an
external interface; it serves summary objects carrying their string `symbol`
(the shape `json.summaries` is consumed with throughout the repo). -/
structure RestSummary where
  symbol : String
  fields : ObjFields
deriving DecidableEq

/-- State `fetchSnapshot` reads and writes: the shared latest-value cache and
the per-symbol cooldown map `lastSnapshotFetch.current` (uppercased symbol to
ms timestamp). -/
structure SnapshotState where
  latest : Cache
  lastSnapshotFetch : List (String × Nat)
deriving DecidableEq

/-- Map.get on the cooldown map. -/
def lookupTs : List (String × Nat) → String → Option Nat
  | [], _ => none
  | (k2, t) :: rest, k => if k2 = k then some t else lookupTs rest k

/-- Map.set on the cooldown map. -/
def setTs : List (String × Nat) → String → Nat → List (String × Nat)
  | [], k, t => [(k, t)]
  | (k2, t2) :: rest, k, t =>
      if k2 = k then (k, t) :: rest else (k2, t2) :: setTs rest k t

/-- Response loop (lines 207-213): each summary replaces the cache entry for
its symbol and stamps the cooldown map at the response-processing time. -/
def applyRestSummaries (st : SnapshotState) (stamp : Nat) :
    List RestSummary → SnapshotState
  | [] => st
  | s :: rest =>
      applyRestSummaries
        { latest := cacheSet st.latest (some (.str s.symbol)) s.fields,
          lastSnapshotFetch := setTs st.lastSnapshotFetch (toUpperCase s.symbol) stamp }
        stamp rest

/-- fetchSnapshot (lines 178-215), reduced to its state effect and the REST
request it issues (`some toFetch`, the comma-joined symbols of the query).
`symbols?` is the caller's array (`none` for a missing argument), `now` the
clock at the cooldown check (line 186), `stamp` the clock when the response
is processed (line 210), and `response` the parsed `json.summaries` (`none`
for a network error or a non-ok status, both swallowed without advancing any
cooldown). The filter keeps a requested symbol when `force` is set or its
last fetch lies more than `cooldown` ms in the past (Nat subtraction agrees
with the JS number subtraction here since a negative difference also fails
the strict comparison). -/
def fetchSnapshot (extras : List String) (symbols? : Option (List String))
    (force : Bool) (cooldownMs? : Option Nat) (now stamp : Nat)
    (response : Option (List RestSummary)) (st : SnapshotState) :
    SnapshotState × Option (List String) :=
  match symbols? with
  | none => (st, none)
  | some symbols =>
    if symbols.isEmpty then (st, none)
    else
      let cooldown := cooldownMs?.getD 5000
      let requested := dedupKeepFirst (symbols ++ extras)
      let toFetch := requested.filter (fun s =>
        force || decide (now - (lookupTs st.lastSnapshotFetch (toUpperCase s)).getD 0 > cooldown))
      if toFetch.isEmpty then (st, none)
      else
        match response with
        | none => (st, some toFetch)
        | some summaries => (applyRestSummaries st stamp summaries, some toFetch)

/-- C5: from a state in which BTCUSDT was never fetched, a first
`fetchSnapshot(["BTCUSDT"])` issues the one REST request and stamps the
cooldown map with the response time `r`; a second call within the 5000 ms
default cooldown window issues no request and changes nothing; a call with
`force` issues a request regardless of the window. -/
theorem fetchSnapshot_cooldown_single_request (c : Cache) (t1 t2 r stamp2 : Nat)
    (fs : ObjFields) (resp2 : Option (List RestSummary))
    (h1 : t1 > 5000) (h2 : t2 - r ≤ 5000) :
    (fetchSnapshot [] (some ["BTCUSDT"]) false none t1 r
        (some [{ symbol := "BTCUSDT", fields := fs }])
        { latest := c, lastSnapshotFetch := [] }).2 = some ["BTCUSDT"]
    ∧ (fetchSnapshot [] (some ["BTCUSDT"]) false none t1 r
        (some [{ symbol := "BTCUSDT", fields := fs }])
        { latest := c, lastSnapshotFetch := [] }).1
      = { latest := cacheSet c (some (.str "BTCUSDT")) fs,
          lastSnapshotFetch := [("BTCUSDT", r)] }
    ∧ fetchSnapshot [] (some ["BTCUSDT"]) false none t2 stamp2 resp2
        { latest := cacheSet c (some (.str "BTCUSDT")) fs,
          lastSnapshotFetch := [("BTCUSDT", r)] }
      = ({ latest := cacheSet c (some (.str "BTCUSDT")) fs,
           lastSnapshotFetch := [("BTCUSDT", r)] }, none)
    ∧ (fetchSnapshot [] (some ["BTCUSDT"]) true none t2 stamp2 resp2
        { latest := cacheSet c (some (.str "BTCUSDT")) fs,
          lastSnapshotFetch := [("BTCUSDT", r)] }).2 = some ["BTCUSDT"] := by
  have hup : toUpperCase "BTCUSDT" = "BTCUSDT" := by decide
  have hfirst : (decide (5000 < t1 - (lookupTs ([] : List (String × Nat)) "BTCUSDT").getD 0))
      = true := by
    simp only [lookupTs, Option.getD_none]
    exact decide_eq_true h1
  have hl : lookupTs [("BTCUSDT", r)] "BTCUSDT" = some r := rfl
  have hsecond : (decide (5000 < t2 - (lookupTs [("BTCUSDT", r)] "BTCUSDT").getD 0))
      = false := by
    rw [hl, Option.getD_some]
    exact decide_eq_false (by omega)
  refine ⟨?_, ?_, ?_, ?_⟩
  · simp [fetchSnapshot, dedupKeepFirst, List.filter, hup, hfirst]
  · simp [fetchSnapshot, dedupKeepFirst, List.filter, hup, hfirst, applyRestSummaries,
      setTs]
  · simp [fetchSnapshot, dedupKeepFirst, List.filter, hup, hsecond]
  · cases resp2 <;>
      simp [fetchSnapshot, dedupKeepFirst, List.filter, applyRestSummaries]

/-- C5 witness: the cooldown scenario at t1 = 10000, response stamped r =
10020, second call at t2 = 12000 (within 5 s of the stamp). -/
theorem fetchSnapshot_cooldown_single_request_witness :
    (10000 : Nat) > 5000 ∧ (12000 : Nat) - 10020 ≤ 5000
    ∧ (fetchSnapshot [] (some ["BTCUSDT"]) false none 10000 10020
        (some [{ symbol := "BTCUSDT", fields := [("symbol", .str "BTCUSDT")] }])
        { latest := [], lastSnapshotFetch := [] }).2 = some ["BTCUSDT"]
    ∧ fetchSnapshot [] (some ["BTCUSDT"]) false none 12000 12020 none
        { latest := cacheSet [] (some (.str "BTCUSDT")) [("symbol", .str "BTCUSDT")],
          lastSnapshotFetch := [("BTCUSDT", 10020)] }
      = ({ latest := cacheSet [] (some (.str "BTCUSDT")) [("symbol", .str "BTCUSDT")],
           lastSnapshotFetch := [("BTCUSDT", 10020)] }, none) :=
  ⟨by decide, by decide,
   (fetchSnapshot_cooldown_single_request [] 10000 12000 10020 12020
      [("symbol", .str "BTCUSDT")] none (by decide) (by decide)).1,
   (fetchSnapshot_cooldown_single_request [] 10000 12000 10020 12020
      [("symbol", .str "BTCUSDT")] none (by decide) (by decide)).2.2.1⟩

/-- The dedup of a non-empty list is non-empty. -/
theorem dedupKeepFirst_cons_ne_nil (s : String) (l : List String) :
    dedupKeepFirst (s :: l) ≠ [] := by
  have grow : ∀ (l2 : List String) (acc : List String), acc ≠ [] →
      l2.foldl (fun acc2 s2 => if s2 ∈ acc2 then acc2 else acc2 ++ [s2]) acc ≠ [] := by
    intro l2
    induction l2 with
    | nil => intro acc h; exact h
    | cons a rest ih =>
        intro acc h
        simp only [List.foldl]
        by_cases ha : a ∈ acc
        · rw [if_pos ha]; exact ih acc h
        · rw [if_neg ha]
          exact ih (acc ++ [a]) (by simp)
  simp only [dedupKeepFirst, List.foldl]
  have : (s ∈ ([] : List String)) = False := by simp
  rw [if_neg (by simp)]
  exact grow l [s] (by simp)

/-- C9: fetchSnapshot with a missing or empty symbols array returns
immediately — no REST request is issued and neither the latest-value cache
nor the cooldown map changes, whatever ExtraSymbols holds; with at least one
symbol passed (here under `force`), the extras are unioned into the request. -/
theorem fetchSnapshot_empty_symbols_noop (extras : List String) (force : Bool)
    (cd : Option Nat) (now stamp : Nat) (resp : Option (List RestSummary))
    (st : SnapshotState) (s : String) (rest : List String) :
    fetchSnapshot extras none force cd now stamp resp st = (st, none)
    ∧ fetchSnapshot extras (some []) force cd now stamp resp st = (st, none)
    ∧ (fetchSnapshot extras (some (s :: rest)) true cd now stamp none st).2
        = some (dedupKeepFirst (s :: rest ++ extras)) := by
  refine ⟨rfl, rfl, ?_⟩
  have hfill : (dedupKeepFirst ((s :: rest) ++ extras)).filter (fun s2 =>
      true || decide (now - (lookupTs st.lastSnapshotFetch (toUpperCase s2)).getD 0
        > cd.getD 5000)) = dedupKeepFirst ((s :: rest) ++ extras) := by
    simp
  simp only [fetchSnapshot, List.isEmpty_cons, Bool.false_eq_true, if_false, hfill]
  rw [if_neg]
  simp only [List.cons_append]
  exact fun h => dedupKeepFirst_cons_ne_nil s (rest ++ extras) (by
    simpa using h)

/-! Mobile proactive auto-refresh: the interval body installed by
`startAutoRefresh` in `apps/mobile/src/context/AuthContext.tsx`
(lines 48-83), with `stopAutoRefresh` (lines 29-37) and the user-state
effect of `refreshUser` (lines 151-163), which the success path awaits. -/

/-- Mobile auth state the interval body touches: the
`consecutiveFailures.current` counter, whether a user is set (signed in),
whether tokens remain in secure storage, and whether the interval timer is
installed. -/
structure MobileAuthState where
  consecutiveFailures : Nat
  userSet : Bool
  tokensStored : Bool
  timerActive : Bool
deriving DecidableEq

/-- stopAutoRefresh (lines 29-37): clears the interval and resets the
counter. -/
def stopAutoRefresh (s : MobileAuthState) : MobileAuthState :=
  { s with timerActive := false, consecutiveFailures := 0 }

/-- Outcome of one interval firing. `refreshFailed` is `mobileApi.refresh()`
throwing (the `catch` path). When the refresh succeeds, the body awaits
`refreshUser()` (line 63), which never throws: `userOk` records whether its
`GET /user/me` came back ok — on a non-ok status or an exception it calls
`setUser(null)` (lines 151-163). -/
inductive TickOutcome where
  | refreshFailed
  | refreshOk (userOk : Bool)
deriving DecidableEq

/-- One firing of the auto-refresh interval body (lines 60-81): a successful
refresh runs `refreshUser()` — setting the user state from the `/user/me`
result — and resets the counter to zero; a failed refresh increments the
counter, and only upon reaching 3 are the tokens cleared, the user set to
null and the timer stopped. -/
def autoRefreshTick (s : MobileAuthState) : TickOutcome → MobileAuthState
  | .refreshOk userOk => { s with userSet := userOk, consecutiveFailures := 0 }
  | .refreshFailed =>
      let f := s.consecutiveFailures + 1
      if f ≥ 3 then
        stopAutoRefresh { s with consecutiveFailures := f, userSet := false, tokensStored := false }
      else { s with consecutiveFailures := f }

/-- The interval firing repeatedly with the given outcomes. -/
def runAutoRefresh : MobileAuthState → List TickOutcome → MobileAuthState
  | s, [] => s
  | s, o :: rest => runAutoRefresh (autoRefreshTick s o) rest

/-- Spec-side reading of "3 consecutive failures" over an outcome sequence,
independent of the code's counter: `n` failures already accrued. -/
def hasThreeConsecFailuresFrom : List TickOutcome → Nat → Bool
  | [], _ => false
  | .refreshOk _ :: rest, _ => hasThreeConsecFailuresFrom rest 0
  | .refreshFailed :: rest, n =>
      decide (n + 1 ≥ 3) || hasThreeConsecFailuresFrom rest (n + 1)

/-- An outcome sequence containing 3 consecutive refresh failures
somewhere. -/
def hasThreeConsecFailures (outs : List TickOutcome) : Bool :=
  hasThreeConsecFailuresFrom outs 0

/-- Whether every successful tick's profile re-fetch also came back ok. -/
def allProfileFetchesOk : List TickOutcome → Bool
  | [] => true
  | .refreshOk u :: rest => u && allProfileFetchesOk rest
  | .refreshFailed :: rest => allProfileFetchesOk rest

/-- State right after `startAutoRefresh` installs the interval for a
signed-in user with stored tokens. -/
def startedAuthState : MobileAuthState :=
  { consecutiveFailures := 0, userSet := true, tokensStored := true, timerActive := true }

theorem runAutoRefresh_no_streak (outs : List TickOutcome) :
    ∀ n s, s.consecutiveFailures = n → s.tokensStored = true → s.timerActive = true →
      hasThreeConsecFailuresFrom outs n = false →
      (runAutoRefresh s outs).tokensStored = true
      ∧ (runAutoRefresh s outs).timerActive = true
      ∧ (s.userSet = true → allProfileFetchesOk outs = true →
          (runAutoRefresh s outs).userSet = true) := by
  induction outs with
  | nil => intro n s _ ht htm _; exact ⟨ht, htm, fun hu _ => hu⟩
  | cons o rest ih =>
      intro n s hn ht htm hstreak
      cases o with
      | refreshOk u =>
          simp only [hasThreeConsecFailuresFrom] at hstreak
          obtain ⟨ht2, htm2, hu2⟩ := ih 0 (autoRefreshTick s (.refreshOk u))
            (by simp [autoRefreshTick]) (by simp [autoRefreshTick, ht])
            (by simp [autoRefreshTick, htm]) hstreak
          refine ⟨ht2, htm2, fun hu hall => ?_⟩
          simp only [allProfileFetchesOk, Bool.and_eq_true] at hall
          exact hu2 (by simp [autoRefreshTick, hall.1]) hall.2
      | refreshFailed =>
          simp only [hasThreeConsecFailuresFrom, Bool.or_eq_false_iff,
            decide_eq_false_iff_not] at hstreak
          obtain ⟨h3, hrest⟩ := hstreak
          have hlt : ¬ (s.consecutiveFailures + 1 ≥ 3) := by omega
          obtain ⟨ht2, htm2, hu2⟩ := ih (n + 1) (autoRefreshTick s .refreshFailed)
            (by simp only [autoRefreshTick]; rw [if_neg hlt]; simp [hn])
            (by simp only [autoRefreshTick]; rw [if_neg hlt]; simp [ht])
            (by simp only [autoRefreshTick]; rw [if_neg hlt]; simp [htm]) hrest
          refine ⟨ht2, htm2, fun hu hall => ?_⟩
          simp only [allProfileFetchesOk] at hall
          refine hu2 ?_ hall
          simp only [autoRefreshTick]
          rw [if_neg hlt]
          simp [hu]

/-- C8 counterexample: one tick whose token refresh succeeds but whose
awaited profile re-fetch (`GET /user/me` inside `refreshUser`, lines 63 and
151-163) is non-ok sets the user state to logged out with zero accrued
consecutive failures — the user does not remain signed in after fewer than
3 consecutive failures. -/
theorem mobile_profile_fetch_logout_cex :
    hasThreeConsecFailures [.refreshOk false] = false
    ∧ (runAutoRefresh startedAuthState [.refreshOk false]).userSet = false
    ∧ (runAutoRefresh startedAuthState [.refreshOk false]).consecutiveFailures = 0
    ∧ (runAutoRefresh startedAuthState [.refreshOk false]).tokensStored = true
    ∧ (runAutoRefresh startedAuthState [.refreshOk false]).timerActive = true := by
  refine ⟨by decide, by decide, by decide, by decide, by decide⟩

/-- C8 as amended: a failed proactive refresh increments the
consecutive-failure counter and any successful refresh resets it to zero
(while setting the user state from the awaited `/user/me` re-fetch); the
third consecutive failure — and only that path of the counter — clears the
stored tokens, logs the user out and stops the timer; across any outcome
sequence with no run of 3 consecutive failures the tokens stay stored and
the timer keeps running, and the user moreover stays signed in provided
each successful tick's profile re-fetch also succeeded. -/
theorem mobile_three_failures_logout (s : MobileAuthState) (outs : List TickOutcome)
    (u : Bool) :
    (autoRefreshTick s (.refreshOk u) = { s with userSet := u, consecutiveFailures := 0 })
    ∧ (s.consecutiveFailures + 1 < 3 →
        autoRefreshTick s .refreshFailed
          = { s with consecutiveFailures := s.consecutiveFailures + 1 })
    ∧ (s.consecutiveFailures = 2 →
        autoRefreshTick s .refreshFailed
          = { consecutiveFailures := 0, userSet := false, tokensStored := false, timerActive := false })
    ∧ (hasThreeConsecFailures outs = false →
        (runAutoRefresh startedAuthState outs).tokensStored = true
        ∧ (runAutoRefresh startedAuthState outs).timerActive = true
        ∧ (allProfileFetchesOk outs = true →
            (runAutoRefresh startedAuthState outs).userSet = true)) := by
  obtain ⟨cf, us, ts, tm⟩ := s
  refine ⟨rfl, fun h => ?_, fun h => ?_, fun h => ?_⟩
  · simp only [autoRefreshTick]
    simp only at h
    rw [if_neg (by omega)]
  · simp only at h
    subst h
    simp [autoRefreshTick, stopAutoRefresh]
  · obtain ⟨ht, htm, hu⟩ := runAutoRefresh_no_streak outs 0 startedAuthState rfl rfl rfl h
    exact ⟨ht, htm, fun hall => hu rfl hall⟩

/-- Concrete mobile state with one accrued consecutive failure. -/
def accruedOne : MobileAuthState :=
  { consecutiveFailures := 1, userSet := true, tokensStored := true, timerActive := true }

/-- C8 witness: two failures, a success with an ok profile re-fetch, then a
further failure never reach three consecutive, so the user stays signed in
with the timer running; and from one accrued failure a further failure only
increments the counter. -/
theorem mobile_three_failures_logout_witness :
    hasThreeConsecFailures [.refreshFailed, .refreshFailed, .refreshOk true, .refreshFailed]
      = false
    ∧ allProfileFetchesOk [.refreshFailed, .refreshFailed, .refreshOk true, .refreshFailed]
      = true
    ∧ (runAutoRefresh startedAuthState
        [.refreshFailed, .refreshFailed, .refreshOk true, .refreshFailed]).userSet = true
    ∧ accruedOne.consecutiveFailures + 1 < 3
    ∧ autoRefreshTick accruedOne .refreshFailed = { accruedOne with consecutiveFailures := 2 } :=
  ⟨by decide, by decide,
   ((mobile_three_failures_logout startedAuthState
      [.refreshFailed, .refreshFailed, .refreshOk true, .refreshFailed] true).2.2.2
      (by decide)).2.2 (by decide),
   by decide,
   ((mobile_three_failures_logout accruedOne [] true).2.1 (by decide)).trans (by decide)⟩

/-! Single-flight token refresh: the event-loop interleaving of the response
interceptor's refresh path (`packages/api/src/axios.ts` lines 39-127:
`isRefreshing`, `refreshPromise`, `doRefresh` with the localStorage
`refresh_in_progress` flag and its bounded 100 ms-poll / 5 s-timeout wait)
with the provider's proactive `doRefreshAndReschedule`
(`AuthProvider.tsx` lines 250-300). Each event below is one synchronous
segment between `await` points of the source, which is the atomicity the
browser event loop guarantees. -/

/-- Program counter of the shared `doRefresh` task the interceptor starts. -/
inductive DoRefreshPc where
  | idle
  /-- suspended in the wait loop's 100 ms sleep, `n` sleeps completed. -/
  | looping (n : Nat)
  /-- its own `fetch(/auth/refresh)` is in flight. -/
  | fetching
  /-- the promise resolved (token fetched or reused from storage). -/
  | done
deriving DecidableEq

/-- Program counter of the provider's proactive `doRefreshAndReschedule`. -/
inductive ProviderPc where
  | off
  /-- the proactive timer fired; the body has not run yet. -/
  | ready
  /-- flag set, `fetch(/auth/refresh)` in flight (lines 260-267). -/
  | fetching
  /-- response stored, flag cleared, awaiting `GET /user/me` (lines 268-279). -/
  | awaitingUser
  | done
deriving DecidableEq

/-- State of one 401 caller inside the response interceptor. -/
inductive CallerPc where
  | idle
  | waiting
  | resumed
deriving DecidableEq

/-- Shared state of a tab: localStorage, the interceptor module globals, and
the observable network/caller effects. -/
structure RefreshState where
  /-- localStorage `refresh_in_progress` is `'1'`. -/
  flag : Bool
  /-- the `access_token` field of localStorage `cryptics_auth`. -/
  storedAuth : Option String
  /-- localStorage `access_token`. -/
  storedAccess : Option String
  /-- module global `isRefreshing` of axios.ts. -/
  isRefreshing : Bool
  /-- resolution value of `refreshPromise` once settled (waiters hold the
  promise reference, so the value stays observable to them). -/
  promiseResult : Option String
  /-- POST /auth/refresh requests issued so far, by anyone. -/
  networkCalls : Nat
  dpc : DoRefreshPc
  ppc : ProviderPc
  /-- the token the provider's own refresh obtained. -/
  providerTok : Option String
  c0 : CallerPc
  c1 : CallerPc
  /-- `res.access_token` caller 0 resumed with. -/
  tok0 : Option String
  tok1 : Option String
deriving DecidableEq

/-- Events: the atomic synchronous segments of the three tasks. -/
inductive RefreshEv where
  /-- provider body start: set flag, issue its fetch (lines 259-267). -/
  | providerStart
  /-- provider fetch ok: clear flag, persist `access_token` (lines 268-278). -/
  | providerFetchOk
  /-- provider persists the rotated token into `cryptics_auth` after the
  `/user/me` await (lines 284-289). -/
  | providerPersist
  /-- a 401 reaches the interceptor for caller 0 (`false`) or 1 (`true`):
  lines 116-125 plus the synchronous prefix of `doRefresh` when this caller
  starts it (lines 54-66 up to the first sleep). -/
  | callerEntry (second : Bool)
  /-- one sleep of the wait loop completes and the loop condition is
  re-checked; on exit the post-loop code up to the next await runs
  (lines 66-89). -/
  | pollTick
  /-- `doRefresh`'s own fetch resolves ok (lines 89-99). -/
  | doRefreshFetchOk
  /-- a waiting caller resumes from `await refreshPromise`: clears the
  globals, persists and broadcasts the token, retries (lines 125-154). -/
  | callerResume (second : Bool)
deriving DecidableEq

/-- The addressed caller's pc. -/
def callerOf (s : RefreshState) (second : Bool) : CallerPc :=
  if second then s.c1 else s.c0

/-- Replace the addressed caller's pc. -/
def setCaller (s : RefreshState) (second : Bool) (c : CallerPc) : RefreshState :=
  if second then { s with c1 := c } else { s with c0 := c }

/-- Record the token the addressed caller resumed with. -/
def setTok (s : RefreshState) (second : Bool) (t : Option String) : RefreshState :=
  if second then { s with tok1 := t } else { s with tok0 := t }

/-- One atomic event applied to the state; an event whose task is not at the
corresponding await point leaves the state unchanged. `rotP` and `rotD` are
the tokens the server would hand the provider's and the interceptor's fetch
respectively. -/
def step (rotP rotD : String) (s : RefreshState) : RefreshEv → RefreshState
  | .providerStart =>
      match s.ppc with
      | .ready => { s with flag := true, networkCalls := s.networkCalls + 1, ppc := .fetching }
      | _ => s
  | .providerFetchOk =>
      match s.ppc with
      | .fetching =>
          { s with flag := false, storedAccess := some rotP, providerTok := some rotP,
                   ppc := .awaitingUser }
      | _ => s
  | .providerPersist =>
      match s.ppc with
      | .awaitingUser => { s with storedAuth := some rotP, ppc := .done }
      | _ => s
  | .callerEntry second =>
      match callerOf s second with
      | .idle =>
          if s.isRefreshing then setCaller s second .waiting
          else
            setCaller { s with isRefreshing := true, flag := true, dpc := .looping 0 }
              second .waiting
      | _ => s
  | .pollTick =>
      match s.dpc with
      | .looping n =>
          if s.flag then
            if 100 * (n + 1) < 5000 then { s with dpc := .looping (n + 1) }
            else { s with networkCalls := s.networkCalls + 1, dpc := .fetching }
          else
            match s.storedAuth with
            | some t =>
                if t ≠ "" then { s with promiseResult := some t, dpc := .done }
                else { s with networkCalls := s.networkCalls + 1, dpc := .fetching }
            | none => { s with networkCalls := s.networkCalls + 1, dpc := .fetching }
      | _ => s
  | .doRefreshFetchOk =>
      match s.dpc with
      | .fetching => { s with flag := false, promiseResult := some rotD, dpc := .done }
      | _ => s
  | .callerResume second =>
      match callerOf s second, s.promiseResult with
      | .waiting, some t =>
          setTok
            (setCaller
              { s with isRefreshing := false, storedAuth := some t, storedAccess := some t }
              second .resumed)
            second (some t)
      | _, _ => s

/-- Whether the event's task is actually at the corresponding await point, so
that executing it is a real scheduler choice and not a no-op. -/
def enabledEv (s : RefreshState) : RefreshEv → Bool
  | .providerStart => decide (s.ppc = .ready)
  | .providerFetchOk => decide (s.ppc = .fetching)
  | .providerPersist => decide (s.ppc = .awaitingUser)
  | .callerEntry second => decide (callerOf s second = .idle)
  | .pollTick =>
      match s.dpc with
      | .looping _ => true
      | _ => false
  | .doRefreshFetchOk => decide (s.dpc = .fetching)
  | .callerResume second =>
      decide (callerOf s second = .waiting) && s.promiseResult.isSome

/-- Execute a trace of events in order. -/
def run (rotP rotD : String) (s : RefreshState) : List RefreshEv → RefreshState
  | [] => s
  | e :: rest => run rotP rotD (step rotP rotD s e) rest

/-- Check that every event of the trace is enabled when it executes: the
trace is a genuine interleaving. -/
def runEnabled (rotP rotD : String) (s : RefreshState) : List RefreshEv → Bool
  | [] => true
  | e :: rest => enabledEv s e && runEnabled rotP rotD (step rotP rotD s e) rest

/-- Tab state when the proactive timer fires while a user holds the access
token "OLD" (persisted in `cryptics_auth` at login): no refresh under way,
no 401 handled yet. -/
def staleReadState : RefreshState :=
  { flag := false, storedAuth := some "OLD", storedAccess := some "OLD",
    isRefreshing := false, promiseResult := none, networkCalls := 0,
    dpc := .idle, ppc := .ready, providerTok := none,
    c0 := .idle, c1 := .idle, tok0 := none, tok1 := none }

/-- Interleaving in which the provider's refresh and a 401 caller run
concurrently and the provider clears the flag (line 275) before persisting
the rotated token into `cryptics_auth` (lines 284-289, after the `/user/me`
await): the waiting `doRefresh` then reuses the stale token. -/
def staleReuseTrace : List RefreshEv :=
  [.providerStart, .callerEntry false, .providerFetchOk, .pollTick,
   .callerResume false, .providerPersist]

/-- Interleaving in which the provider's refresh outlives `doRefresh`'s 5 s
bounded wait (50 polls at 100 ms): the interceptor then issues its own,
second `/auth/refresh` fetch. -/
def doubleFetchTrace : List RefreshEv :=
  [.providerStart, .callerEntry false] ++ List.replicate 50 .pollTick

/-- C1 counterexample: two genuine interleavings of a proactive refresh and a
concurrent 401 caller in one tab. In the first, exactly one network call
happens but the 401 caller resolves with the stale token "OLD" while the
refresh obtained "NEW"; in the second, two POST /auth/refresh calls are
issued. Both conjuncts of the claim fail on some interleaving. -/
theorem refresh_single_flight_cex :
    runEnabled "NEW" "X" staleReadState staleReuseTrace = true
    ∧ (run "NEW" "X" staleReadState staleReuseTrace).networkCalls = 1
    ∧ (run "NEW" "X" staleReadState staleReuseTrace).providerTok = some "NEW"
    ∧ (run "NEW" "X" staleReadState staleReuseTrace).tok0 = some "OLD"
    ∧ ("OLD" : String) ≠ "NEW"
    ∧ runEnabled "NEW" "X" staleReadState doubleFetchTrace = true
    ∧ (run "NEW" "X" staleReadState doubleFetchTrace).networkCalls = 2 := by
  refine ⟨by decide, by decide, by decide, by decide, by decide, by decide, by decide⟩

/-- Tab state before its two 401-triggered callers enter the interceptor:
no provider refresh is scheduled (`ppc = off`), the interceptor globals are
clear, and the flag and stored tokens are arbitrary. -/
def preTwo401 (flag0 : Bool) (a0 acc0 : Option String) : RefreshState :=
  { flag := flag0, storedAuth := a0, storedAccess := acc0,
    isRefreshing := false, promiseResult := none, networkCalls := 0,
    dpc := .idle, ppc := .off, providerTok := none,
    c0 := .idle, c1 := .idle, tok0 := none, tok1 := none }

/-- Any interleaving in which both 401 callers enter (in either order, chosen
by `e1`) before anything else happens, followed by arbitrary scheduling. -/
def twoCallerRun (rotP rotD : String) (flag0 : Bool) (a0 acc0 : Option String)
    (e1 : Bool) (tr : List RefreshEv) : RefreshState :=
  run rotP rotD (preTwo401 flag0 a0 acc0) (.callerEntry e1 :: .callerEntry (!e1) :: tr)

/-- Invariant of the two-401 scenario: no provider task, both callers past
entry, at most one network call, and the refresh task's phase determines the
flag, the promise result and the exact call count; a resumed caller holds
the rotated token. -/
structure TwoCallerInv (rotD : String) (s : RefreshState) : Prop where
  ppcOff : s.ppc = .off
  c0ne : s.c0 ≠ .idle
  c1ne : s.c1 ≠ .idle
  callsLe : s.networkCalls ≤ 1
  dpcNe : s.dpc ≠ .idle
  loopInv : ∀ n, s.dpc = .looping n →
    s.flag = true ∧ s.promiseResult = none ∧ s.networkCalls = 0
  fetchInv : s.dpc = .fetching → s.promiseResult = none ∧ s.networkCalls = 1
  doneInv : s.dpc = .done → s.promiseResult = some rotD ∧ s.networkCalls = 1
  res0 : s.c0 = .resumed → s.tok0 = some rotD ∧ s.dpc = .done
  res1 : s.c1 = .resumed → s.tok1 = some rotD ∧ s.dpc = .done

theorem twoCallerInv_step (rotP rotD : String) (s : RefreshState) (e : RefreshEv)
    (h : TwoCallerInv rotD s) : TwoCallerInv rotD (step rotP rotD s e) := by
  cases e with
  | providerStart =>
      simp only [step, h.ppcOff]
      exact h
  | providerFetchOk =>
      simp only [step, h.ppcOff]
      exact h
  | providerPersist =>
      simp only [step, h.ppcOff]
      exact h
  | callerEntry second =>
      cases second with
      | false =>
          cases hc : s.c0 with
          | idle => exact absurd hc h.c0ne
          | waiting =>
              simp only [step, callerOf, Bool.false_eq_true, if_false, hc]
              exact h
          | resumed =>
              simp only [step, callerOf, Bool.false_eq_true, if_false, hc]
              exact h
      | true =>
          cases hc : s.c1 with
          | idle => exact absurd hc h.c1ne
          | waiting =>
              simp only [step, callerOf, if_pos rfl, hc]
              exact h
          | resumed =>
              simp only [step, callerOf, if_pos rfl, hc]
              exact h
  | pollTick =>
      cases hdpc : s.dpc with
      | idle => simpa only [step, hdpc] using h
      | fetching => simpa only [step, hdpc] using h
      | done => simpa only [step, hdpc] using h
      | looping n =>
          obtain ⟨hflag, hres, hcalls⟩ := h.loopInv n hdpc
          simp only [step, hdpc]
          rw [if_pos hflag]
          by_cases ht : 100 * (n + 1) < 5000
          · rw [if_pos ht]
            refine ⟨h.ppcOff, h.c0ne, h.c1ne, h.callsLe, by simp, ?_, ?_, ?_, ?_, ?_⟩
            · intro m _
              exact ⟨hflag, hres, hcalls⟩
            · intro hf; simp at hf
            · intro hf; simp at hf
            · intro hc0
              exact absurd ((h.res0 hc0).2.symm.trans hdpc) (by simp)
            · intro hc1
              exact absurd ((h.res1 hc1).2.symm.trans hdpc) (by simp)
          · rw [if_neg ht]
            refine ⟨h.ppcOff, h.c0ne, h.c1ne, by simp [hcalls], by simp, ?_, ?_, ?_, ?_, ?_⟩
            · intro m hm; simp at hm
            · intro _; exact ⟨hres, by simp [hcalls]⟩
            · intro hf; simp at hf
            · intro hc0
              exact absurd ((h.res0 hc0).2.symm.trans hdpc) (by simp)
            · intro hc1
              exact absurd ((h.res1 hc1).2.symm.trans hdpc) (by simp)
  | doRefreshFetchOk =>
      cases hdpc : s.dpc with
      | idle => simpa only [step, hdpc] using h
      | looping n => simpa only [step, hdpc] using h
      | done => simpa only [step, hdpc] using h
      | fetching =>
          obtain ⟨hres, hcalls⟩ := h.fetchInv hdpc
          simp only [step, hdpc]
          refine ⟨h.ppcOff, h.c0ne, h.c1ne, by simp [hcalls], by simp, ?_, ?_, ?_, ?_, ?_⟩
          · intro m hm; simp at hm
          · intro hf; simp at hf
          · intro _; exact ⟨rfl, hcalls⟩
          · intro hc0
            exact absurd ((h.res0 hc0).2.symm.trans hdpc) (by simp)
          · intro hc1
            exact absurd ((h.res1 hc1).2.symm.trans hdpc) (by simp)
  | callerResume second =>
      cases second with
      | false =>
          cases hc : s.c0 with
          | idle =>
              simp only [step, callerOf, Bool.false_eq_true, if_false, hc]
              exact h
          | resumed =>
              simp only [step, callerOf, Bool.false_eq_true, if_false, hc]
              exact h
          | waiting =>
              cases hres : s.promiseResult with
              | none =>
                  simp only [step, callerOf, Bool.false_eq_true, if_false, hc, hres]
                  exact h
              | some t =>
                  have hd : s.dpc = .done := by
                    cases hdpc : s.dpc with
                    | idle => exact absurd hdpc h.dpcNe
                    | looping n =>
                        rw [(h.loopInv n hdpc).2.1] at hres
                        exact absurd hres (by simp)
                    | fetching =>
                        rw [(h.fetchInv hdpc).1] at hres
                        exact absurd hres (by simp)
                    | done => rfl
                  have hrot : s.promiseResult = some rotD := (h.doneInv hd).1
                  have ht : t = rotD := by
                    rw [hres] at hrot
                    exact Option.some.inj hrot
                  subst ht
                  simp only [step, callerOf, Bool.false_eq_true, if_false, hc, hres,
                    setCaller, setTok]
                  refine ⟨h.ppcOff, by simp, h.c1ne, h.callsLe, by simp [hd], ?_, ?_, ?_, ?_, ?_⟩
                  · intro m hm; simp [hd] at hm
                  · intro hf; simp [hd] at hf
                  · intro _; exact ⟨rfl, (h.doneInv hd).2⟩
                  · intro _; exact ⟨rfl, hd⟩
                  · intro hc1; exact ⟨(h.res1 hc1).1, hd⟩
      | true =>
          cases hc : s.c1 with
          | idle =>
              simp only [step, callerOf, if_pos rfl, hc]
              exact h
          | resumed =>
              simp only [step, callerOf, if_pos rfl, hc]
              exact h
          | waiting =>
              cases hres : s.promiseResult with
              | none =>
                  simp only [step, callerOf, if_pos rfl, hc, hres]
                  exact h
              | some t =>
                  have hd : s.dpc = .done := by
                    cases hdpc : s.dpc with
                    | idle => exact absurd hdpc h.dpcNe
                    | looping n =>
                        rw [(h.loopInv n hdpc).2.1] at hres
                        exact absurd hres (by simp)
                    | fetching =>
                        rw [(h.fetchInv hdpc).1] at hres
                        exact absurd hres (by simp)
                    | done => rfl
                  have hrot : s.promiseResult = some rotD := (h.doneInv hd).1
                  have ht : t = rotD := by
                    rw [hres] at hrot
                    exact Option.some.inj hrot
                  subst ht
                  simp only [step, callerOf, if_pos rfl, hc, hres, setCaller, setTok]
                  refine ⟨h.ppcOff, h.c0ne, by simp, h.callsLe, by simp [hd], ?_, ?_, ?_, ?_, ?_⟩
                  · intro m hm; simp [hd] at hm
                  · intro hf; simp [hd] at hf
                  · intro _; exact ⟨rfl, (h.doneInv hd).2⟩
                  · intro hc0; exact ⟨(h.res0 hc0).1, hd⟩
                  · intro _; exact ⟨rfl, hd⟩

theorem twoCallerInv_run (rotP rotD : String) (tr : List RefreshEv) :
    ∀ s, TwoCallerInv rotD s → TwoCallerInv rotD (run rotP rotD s tr) := by
  induction tr with
  | nil => intro s h; exact h
  | cons e rest ih =>
      intro s h
      exact ih _ (twoCallerInv_step rotP rotD s e h)

theorem twoCallerInv_entries (rotP rotD : String) (flag0 : Bool) (a0 acc0 : Option String)
    (e1 : Bool) :
    TwoCallerInv rotD
      (run rotP rotD (preTwo401 flag0 a0 acc0) [.callerEntry e1, .callerEntry (!e1)]) := by
  have hlit : ∀ b1 b2, run rotP rotD (preTwo401 flag0 a0 acc0)
        [.callerEntry b1, .callerEntry b2] =
      { flag := true, storedAuth := a0, storedAccess := acc0, isRefreshing := true,
        promiseResult := none, networkCalls := 0, dpc := .looping 0, ppc := .off,
        providerTok := none,
        c0 := if b1 = false ∨ b2 = false then .waiting else .idle,
        c1 := if b1 = true ∨ b2 = true then .waiting else .idle,
        tok0 := none, tok1 := none } := by
    intro b1 b2
    cases b1 <;> cases b2 <;> rfl
  cases e1 with
  | false =>
      rw [hlit false (!false)]
      refine ⟨rfl, by simp, by simp, by simp, by simp, fun n hn => ⟨rfl, rfl, rfl⟩,
        fun hf => by simp at hf, fun hf => by simp at hf,
        fun hc => by simp at hc, fun hc => by simp at hc⟩
  | true =>
      rw [hlit true (!true)]
      refine ⟨rfl, by simp, by simp, by simp, by simp, fun n hn => ⟨rfl, rfl, rfl⟩,
        fun hf => by simp at hf, fun hf => by simp at hf,
        fun hc => by simp at hc, fun hc => by simp at hc⟩

/-- C1 as amended: when the two concurrent refresh triggers in a tab are both
401-handling requests going through the axios response interceptor, every
interleaving issues at most one POST /auth/refresh call; in every
interleaving in which both callers complete, exactly one network call was
made and both callers resolved with the same rotated access token that the
single refresh obtained. -/
theorem single_flight_two_401 (rotP rotD : String) (flag0 : Bool) (a0 acc0 : Option String)
    (e1 : Bool) (tr : List RefreshEv) :
    (twoCallerRun rotP rotD flag0 a0 acc0 e1 tr).networkCalls ≤ 1
    ∧ ((twoCallerRun rotP rotD flag0 a0 acc0 e1 tr).c0 = .resumed →
       (twoCallerRun rotP rotD flag0 a0 acc0 e1 tr).c1 = .resumed →
        (twoCallerRun rotP rotD flag0 a0 acc0 e1 tr).networkCalls = 1
        ∧ (twoCallerRun rotP rotD flag0 a0 acc0 e1 tr).tok0 = some rotD
        ∧ (twoCallerRun rotP rotD flag0 a0 acc0 e1 tr).tok1 = some rotD) := by
  have hsplit : twoCallerRun rotP rotD flag0 a0 acc0 e1 tr
      = run rotP rotD (run rotP rotD (preTwo401 flag0 a0 acc0)
          [.callerEntry e1, .callerEntry (!e1)]) tr := rfl
  have hInv := twoCallerInv_run rotP rotD tr _
    (twoCallerInv_entries rotP rotD flag0 a0 acc0 e1)
  rw [hsplit]
  exact ⟨hInv.callsLe, fun h0 h1 =>
    ⟨(hInv.doneInv (hInv.res0 h0).2).2, (hInv.res0 h0).1, (hInv.res1 h1).1⟩⟩

/-- A completing schedule for the two-caller scenario: the wait loop times
out after its 50 sleeps, the single fetch resolves, both callers resume. -/
def twoCallerFinishTrace : List RefreshEv :=
  List.replicate 50 .pollTick ++ [.doRefreshFetchOk, .callerResume false, .callerResume true]

/-- C1 witness: on the concrete completing schedule the interleaving is
genuine (every event enabled), both callers resume, and the theorem yields
one network call and the rotated token "ROT" for both. -/
theorem single_flight_two_401_witness :
    (twoCallerRun "P" "ROT" false none none false twoCallerFinishTrace).c0 = .resumed
    ∧ (twoCallerRun "P" "ROT" false none none false twoCallerFinishTrace).c1 = .resumed
    ∧ ((twoCallerRun "P" "ROT" false none none false twoCallerFinishTrace).networkCalls = 1
       ∧ (twoCallerRun "P" "ROT" false none none false twoCallerFinishTrace).tok0 = some "ROT"
       ∧ (twoCallerRun "P" "ROT" false none none false twoCallerFinishTrace).tok1 = some "ROT")
    ∧ runEnabled "P" "ROT" (preTwo401 false none none)
        (.callerEntry false :: .callerEntry (!false) :: twoCallerFinishTrace) = true :=
  ⟨by decide, by decide,
   (single_flight_two_401 "P" "ROT" false none none false twoCallerFinishTrace).2
     (by decide) (by decide),
   by decide⟩

end Cryptics
